import Mathlib

/-!
Verification of the cloudlibraries/coroutine handoff engine.

The Go source implements symmetric coroutines over a pair of capacity-1
channels.  Two variants coexist in the repository: the direct-handle
variant (struct Coroutine with status/inputCh/outputCh/function, operations
Create/Start/Resume/Yield and their context/timeout wrappers built on the
external safe package) and an older identifier-registry variant
(Wrap/Call/Resume/TryResume/AsyncResume/Yield with expire-based select
timeouts).

This file gives a shallow embedding of both, at two granularities:

* an atomic per-call model (Handle, Coroutine.Resume, Coroutine.Yield,
  Coroutine.ResumeWithTimeout, Reg.resume) translating one Resume or Yield
  invocation line by line, where a call that would block on a channel
  operation is represented by the Option value none;

* a two-thread micro-step interleaving model (Config, bstep, cstep, exec)
  in which the controller task (running a list of Resume calls) and the
  body task (spawned by Create: the automatic startup Yield, the user
  yields, and the deferred close) advance one source line at a time under
  an arbitrary schedule.  Ghost fields record the inputs sent by Resume,
  the inputs received by Yield, and every status change, so that trace
  properties of the protocol can be stated.

The external safe package (github.com/cloudlibraries/safe) is out of
scope of the repository; per the specification it executes a function and
converts a runtime panic into an ordinary error value, and its timeout
variant races the function against a timer.  Faults are therefore threaded
through the embedding as Err values, and the timer of DoWithTimeout is an
oracle boolean argument.
-/

/-- Values exchanged through the channels: the Go interface values used by
the engine and its tests (nil and strings). -/
inductive GoVal
| vnil
| str (s : String)
deriving DecidableEq, Repr

/-- A message on either channel is a sequence of values (Go type []any). -/
abbrev Vals := List GoVal

/-- Status of a coroutine, from the source constant block
(CREATED, RUNNING, SUSPENDED, CLOSED). -/
inductive Status
| CREATED
| RUNNING
| SUSPENDED
| CLOSED
deriving DecidableEq, Repr

/-- Errors observable from the engine.  closed and invalidFunction are the
two sentinel errors of the source; deadline is the error returned by the
timeout wrapper when its timer fires; panicked is the ordinary error that
the safe boundary produces from a recovered runtime panic (for example a
send on a closed channel); timeoutPanic is the registry variant's
"coroutine suspended timeout" panic value; app is an application error
returned by the coroutine body itself. -/
inductive Err
| closed
| invalidFunction
| deadline
| panicked
| timeoutPanic
| app (msg : String)
deriving DecidableEq, Repr

/-- A Go channel of capacity 1 holding Vals messages: its single buffer
slot and its closed flag. -/
structure Chan where
  buf : Option Vals
  closed : Bool
deriving DecidableEq, Repr

/-- Contents of the capacity-1 buffer as a list (one element or none). -/
def optList : Option Vals → List Vals
| some v => [v]
| none => []

/-! ### Atomic per-call model of the direct-handle variant -/

/-- Shared mutable state of one Coroutine handle, as seen by a single
Resume or Yield call: the status field and the two channels (which are
closed together by the body's deferred close, hence one flag). -/
structure Handle where
  status : Status
  inBuf : Option Vals
  outBuf : Option Vals
  chClosed : Bool
deriving DecidableEq, Repr

namespace Coroutine

/-- Translation of the method Coroutine.Resume (src/coroutine.go):
if status is CLOSED return ErrCoroutineIsClosed with nil output and no
channel operation; otherwise receive from outputCh then send the input on
inputCh.  A receive on a closed empty channel yields the zero value (the
empty sequence); a send on a closed channel panics, which the surrounding
safe.Do boundary converts into the panicked error while the output
received so far is still returned (named return value).  The result none
means the call blocks (empty open output buffer, or full input buffer)
and does not complete. -/
def Resume (h : Handle) (input : Vals) : Option ((Vals × Option Err) × Handle) :=
  if h.status = .CLOSED then
    some (([], some .closed), h)
  else
    match h.outBuf with
    | some o =>
      if h.chClosed then
        some ((o, some .panicked), { h with outBuf := none })
      else
        match h.inBuf with
        | none => some ((o, none), { h with outBuf := none, inBuf := some input })
        | some _ => none
    | none =>
      if h.chClosed then
        some (([], some .panicked), h)
      else
        none

/-- Translation of the method Coroutine.Yield (src/coroutine.go):
if status is CLOSED return ErrCoroutineIsClosed; if status is CREATED send
the output on outputCh, receive from inputCh, set status RUNNING;
otherwise set status SUSPENDED, send, receive, set status RUNNING.
A send on a closed channel panics (converted to the panicked error by the
call's safe.Do boundary, after the SUSPENDED write of the default branch
has already happened); none means the call blocks. -/
def Yield (h : Handle) (out : Vals) : Option ((Vals × Option Err) × Handle) :=
  if h.status = .CLOSED then
    some (([], some .closed), h)
  else if h.status = .CREATED then
    if h.chClosed then
      some (([], some .panicked), h)
    else
      match h.outBuf with
      | some _ => none
      | none =>
        match h.inBuf with
        | some v =>
          some ((v, none), { h with status := .RUNNING, outBuf := some out, inBuf := none })
        | none => none
  else
    if h.chClosed then
      some (([], some .panicked), { h with status := .SUSPENDED })
    else
      match h.outBuf with
      | some _ => none
      | none =>
        match h.inBuf with
        | some v =>
          some ((v, none), { h with status := .RUNNING, outBuf := some out, inBuf := none })
        | none => none

/-- Translation of Coroutine.ResumeWithTimeout (src/coroutine.go), whose
body is the same closure as Resume handed to safe.DoWithTimeout.
Modelled from the spec: the external safe.DoWithTimeout races the closure
against a timer and, when the timer fires first, returns a
deadline-exceeded error; the timer oracle is the boolean argument.  The
closure itself (the part that lives in this repository) contains no write
to the status field, so a timeout leaves the handle exactly as it was. -/
def ResumeWithTimeout (timerFired : Bool) (h : Handle) (input : Vals) :
    Option ((Vals × Option Err) × Handle) :=
  if timerFired then
    some (([], some .deadline), h)
  else
    Resume h input

end Coroutine

/-! ### Atomic model of the registry variant's resume -/

/-- Status strings of the registry variant. -/
inductive RStatus
| Created
| Suspended
| Running
| Dead
deriving DecidableEq, Repr

/-- State of one registry-variant coroutine as seen by its resume method. -/
structure RegHandle where
  status : RStatus
  inBuf : Option Vals
  outBuf : Option Vals
deriving DecidableEq, Repr

namespace Reg

/-- Translation of the registry variant's method Coroutine.resume
(src/coroutine.go, second document): a select receiving outData from outCh
against a timer of the configured expire duration, then a select sending
inData on inCh against the same timer.  When a timer fires first the
method panics with the "coroutine suspended timeout" error — note that,
unlike the yield method just below it in the source, resume does not write
the Dead status before panicking.  The panic propagates to the caller of
the package-level Resume, modelled as the Except.error result; the timer
oracles are the boolean arguments; none means neither the channel
operation nor the timer has fired yet. -/
def resume (t1 t2 : Bool) (h : RegHandle) (input : Vals) :
    Option (Except Err Vals × RegHandle) :=
  if t1 then
    some (.error .timeoutPanic, h)
  else
    match h.outBuf with
    | none => none
    | some o =>
      if t2 then
        some (.error .timeoutPanic, { h with outBuf := none })
      else
        match h.inBuf with
        | none => some (.ok o, { h with outBuf := none, inBuf := some input })
        | some _ => none

end Reg

/-! ### Two-thread micro-step model -/

/-- Program counter of the body task inside the goroutine spawned by
Create.  yEnter is the top of a Yield call (the status switch about to be
read); ySetSusp is the SUSPENDED write of the default branch; ySend and
yRecv are the two channel operations (the flag records whether the CREATED
branch was taken); ySetRun is the final RUNNING write; run is the body
between yields (the normalized entry point, modelled as a straight-line
sequence of yields that propagates any Yield error, as the repository's
test bodies do); closeStatus/closeIn/closeOut are the three lines of the
deferred close (status = CLOSED, close(inputCh), close(outputCh)); done is
the terminated goroutine, carrying the error value that the discarded
safe.Do result would hold. -/
inductive BPhase
| yEnter (out : Vals)
| ySetSusp (out : Vals)
| ySend (created : Bool) (out : Vals)
| yRecv (created : Bool)
| ySetRun (created : Bool)
| run
| closeStatus (e : Option Err)
| closeIn (e : Option Err)
| closeOut (e : Option Err)
| done (e : Option Err)
deriving DecidableEq, Repr

/-- The body task: its program counter, the outputs of the user yields not
yet entered, and the error value the entry point returns at the end. -/
structure BodySt where
  phase : BPhase
  outs : List Vals
  ret : Option Err
deriving DecidableEq, Repr

/-- Program counter of the controller task inside one Resume call: idle
between calls, rRecv waiting to receive from outputCh, rSend about to send
the input on inputCh (carrying the output already received). -/
inductive CPhase
| idle
| rRecv (input : Vals)
| rSend (input : Vals) (output : Vals)
deriving DecidableEq, Repr

/-- The controller task: its program counter, the inputs of the Resume
calls not yet started (in call order), and the completed results, newest
first. -/
structure CtrlSt where
  phase : CPhase
  calls : List Vals
  results : List (Vals × Option Err)
deriving DecidableEq, Repr

/-- One global configuration: the handle's shared state (status and the
two capacity-1 channels), the two tasks, and ghost logs (newest first):
sent records every input delivered by a Resume send, recvd every input
returned by a Yield receive, strace every observed value of the status
field (consecutive duplicates collapsed). -/
structure Config where
  status : Status
  inCh : Chan
  outCh : Chan
  body : BodySt
  ctrl : CtrlSt
  sent : List Vals
  recvd : List Vals
  strace : List Status
deriving DecidableEq, Repr

/-- Record a status value at the head of the ghost trace, collapsing a
repeated write of the current value. -/
def pushStatus (s : Status) : List Status → List Status
| [] => [s]
| t :: tr => if t = s then t :: tr else s :: t :: tr

/-- Write the status field and record it in the ghost trace. -/
def setStatus (c : Config) (s : Status) : Config :=
  { c with status := s, strace := pushStatus s c.strace }

/-- One micro-step of the body task, none when it is blocked on a channel
or already done.  Each case is one line of the source: the Yield status
switch, the SUSPENDED write, the send on outputCh (a send on a closed
channel panics, which the Yield call's safe.Do boundary turns into a Yield
error that the body propagates as its return value), the receive from
inputCh (a receive on a closed empty channel returns the zero value), the
RUNNING write, the body's next action (enter the next user Yield, or
return and run the deferred close), and the three lines of the deferred
close. -/
def bstep (c : Config) : Option Config :=
  match c.body.phase with
  | .yEnter out =>
    match c.status with
    | .CLOSED => some { c with body.phase := .closeStatus (some .closed) }
    | .CREATED => some { c with body.phase := .ySend true out }
    | _ => some { c with body.phase := .ySetSusp out }
  | .ySetSusp out =>
    some { setStatus c .SUSPENDED with body.phase := .ySend false out }
  | .ySend created out =>
    if c.outCh.closed then
      some { c with body.phase := .closeStatus (some .panicked) }
    else
      match c.outCh.buf with
      | none => some { c with outCh.buf := some out, body.phase := .yRecv created }
      | some _ => none
  | .yRecv created =>
    match c.inCh.buf with
    | some v =>
      some { c with inCh.buf := none, recvd := v :: c.recvd, body.phase := .ySetRun created }
    | none =>
      if c.inCh.closed then
        some { c with recvd := [] :: c.recvd, body.phase := .ySetRun created }
      else
        none
  | .ySetRun _ =>
    some { setStatus c .RUNNING with body.phase := .run }
  | .run =>
    match c.body.outs with
    | o :: rest => some { c with body.outs := rest, body.phase := .yEnter o }
    | [] => some { c with body.phase := .closeStatus c.body.ret }
  | .closeStatus e =>
    some { setStatus c .CLOSED with body.phase := .closeIn e }
  | .closeIn e =>
    some { c with inCh.closed := true, body.phase := .closeOut e }
  | .closeOut e =>
    some { c with outCh.closed := true, body.phase := .done e }
  | .done _ => none

/-- One micro-step of the controller task, none when it is blocked or has
no call left.  Each case is one line of the source Resume: the status
switch at entry (CLOSED returns ErrCoroutineIsClosed with nil output and
performs no channel operation), the receive from outputCh, and the send on
inputCh (on a closed channel the send panics and safe.Do converts it to
the panicked error, the named output return keeping the value received). -/
def cstep (c : Config) : Option Config :=
  match c.ctrl.phase with
  | .idle =>
    match c.ctrl.calls with
    | [] => none
    | i :: rest =>
      if c.status = .CLOSED then
        some { c with
          ctrl := { phase := .idle
                    calls := rest
                    results := ([], some .closed) :: c.ctrl.results } }
      else
        some { c with ctrl := { c.ctrl with phase := .rRecv i, calls := rest } }
  | .rRecv i =>
    match c.outCh.buf with
    | some o => some { c with outCh.buf := none, ctrl.phase := .rSend i o }
    | none =>
      if c.outCh.closed then
        some { c with ctrl.phase := .rSend i [] }
      else
        none
  | .rSend i o =>
    if c.inCh.closed then
      some { c with
        ctrl := { c.ctrl with
                  phase := .idle
                  results := (o, some .panicked) :: c.ctrl.results } }
    else
      match c.inCh.buf with
      | none =>
        some { c with
          inCh.buf := some i
          sent := i :: c.sent
          ctrl := { c.ctrl with
                    phase := .idle
                    results := (o, none) :: c.ctrl.results } }
      | some _ => none

/-- Run one scheduled micro-step: true schedules the body task, false the
controller; a blocked or finished task leaves the configuration as is. -/
def step (c : Config) (who : Bool) : Config :=
  match (if who then bstep c else cstep c) with
  | some c' => c'
  | none => c

/-- Run a whole schedule. -/
def exec (sched : List Bool) (c : Config) : Config :=
  sched.foldl step c

/-- Iterate the body task alone a given number of micro-steps. -/
def bsteps : Nat → Config → Config
| 0, c => c
| n + 1, c => bsteps n (step c true)

/-- Initial configuration produced by Create for a body performing the
given user yields and returning the given error, with a controller about
to make the given Resume calls: status CREATED, both channels empty and
open, the body task at the top of its automatic startup Yield with no
output. -/
def initConfig (outs : List Vals) (ret : Option Err) (calls : List Vals) : Config :=
  { status := .CREATED
    inCh := ⟨none, false⟩
    outCh := ⟨none, false⟩
    body := ⟨.yEnter [], outs, ret⟩
    ctrl := ⟨.idle, calls, []⟩
    sent := []
    recvd := []
    strace := [.CREATED] }

/-! ### The status automaton and trace acceptance -/

/-- Allowed immediate status transitions of the lifecycle
Created to Running, Running to Suspended and back, Running to Closed. -/
def okNext : Status → Status → Bool
| .CREATED, .RUNNING => true
| .RUNNING, .SUSPENDED => true
| .SUSPENDED, .RUNNING => true
| .RUNNING, .CLOSED => true
| _, _ => false

/-- A ghost trace (newest first) is a chain of the automaton: it starts
(chronologically) at CREATED and every later entry follows its
predecessor by an allowed transition. -/
def chainOK : List Status → Bool
| [] => false
| [s] => s = .CREATED
| s :: t :: tr => okNext t s && chainOK (t :: tr)

/-- Run the status automaton from a state over a chronological list of
observed statuses; none means some step was not an allowed transition. -/
def runStates (q : Status) : List Status → Option Status
| [] => some q
| t :: rest => if okNext q t then runStates t rest else none

/-- Acceptance of a chronological status trace by the lifecycle automaton:
the first observation is CREATED and every subsequent one follows by an
allowed transition, so the whole trace is of the shape
Created, Running, (Suspended, Running)*, with optionally Closed last. -/
def traceAccepted (tr : List Status) : Bool :=
  match tr with
  | .CREATED :: rest => (runStates .CREATED rest).isSome
  | _ => false

theorem runStates_append (q : Status) (xs : List Status) (y : Status) :
    runStates q (xs ++ [y]) =
      (runStates q xs).bind (fun s => if okNext s y then some y else none) := by
  induction xs generalizing q with
  | nil => simp [runStates]
  | cons t rest ih =>
    simp only [List.cons_append, runStates]
    by_cases h : okNext q t = true
    · simp [h, ih]
    · simp [h]

theorem chain_run (tr : List Status) (hc : chainOK tr = true) :
    ∀ s, tr.head? = some s →
      ∃ pre, tr.reverse = Status.CREATED :: pre ∧ runStates .CREATED pre = some s := by
  induction tr with
  | nil => intro s hh; simp at hh
  | cons a tr ih =>
    intro s hh
    simp only [List.head?, Option.some.injEq] at hh
    subst hh
    cases tr with
    | nil =>
      have ha : a = .CREATED := by simpa [chainOK] using hc
      exact ⟨[], by simp [ha], by simp [ha, runStates]⟩
    | cons t tr =>
      simp only [chainOK, Bool.and_eq_true] at hc
      obtain ⟨hok, hc⟩ := hc
      obtain ⟨pre, hrev, hrun⟩ := ih hc t rfl
      refine ⟨pre ++ [a], ?_, ?_⟩
      · simp only [List.reverse_cons] at hrev ⊢
        rw [hrev]
        simp
      · rw [runStates_append, hrun]
        simp [hok]

theorem chain_accepted (tr : List Status) (hc : chainOK tr = true)
    (s : Status) (hh : tr.head? = some s) :
    traceAccepted tr.reverse = true := by
  obtain ⟨pre, hrev, hrun⟩ := chain_run tr hc s hh
  rw [hrev]
  simp [traceAccepted, hrun]

/-! ### The reachability invariant of the two-thread model -/

/-- Statuses compatible with each body program counter: the body task is
the only writer of the status field, so its program position determines
the current status (the created flag of a yield in flight tells which
branch of the status switch was taken). -/
def phaseStatusOK : BPhase → Status → Bool
| .yEnter _, .CREATED => true
| .yEnter _, .RUNNING => true
| .ySetSusp _, .RUNNING => true
| .ySend b _, s => s = (if b then Status.CREATED else Status.SUSPENDED)
| .yRecv b, s => s = (if b then Status.CREATED else Status.SUSPENDED)
| .ySetRun b, s => s = (if b then Status.CREATED else Status.SUSPENDED)
| .run, .RUNNING => true
| .closeStatus _, .RUNNING => true
| .closeIn _, .CLOSED => true
| .closeOut _, .CLOSED => true
| .done _, .CLOSED => true
| _, _ => false

/-- Whether the deferred close has already closed the input channel. -/
def pastIn : BPhase → Bool
| .closeOut _ => true
| .done _ => true
| _ => false

/-- Whether the deferred close has already closed the output channel. -/
def pastOut : BPhase → Bool
| .done _ => true
| _ => false

/-- Reachability invariant of the protocol: the status field agrees with
the body task's position and with the head of the ghost trace, the ghost
trace is a chain of the lifecycle automaton, the channel closed flags
mirror the progress of the deferred close, and every input sent by a
Resume is either still in the input buffer or has been received by a
Yield (order preserved). -/
structure CInv (c : Config) : Prop where
  ps : phaseStatusOK c.body.phase c.status = true
  hin : c.inCh.closed = pastIn c.body.phase
  hout : c.outCh.closed = pastOut c.body.phase
  hhead : c.strace.head? = some c.status
  hchain : chainOK c.strace = true
  hsent : c.sent = optList c.inCh.buf ++ c.recvd

theorem inv_init (outs : List Vals) (ret : Option Err) (calls : List Vals) :
    CInv (initConfig outs ret calls) := by
  exact ⟨rfl, rfl, rfl, rfl, rfl, rfl⟩

theorem pushStatus_head (s : Status) (tr : List Status) :
    (pushStatus s tr).head? = some s := by
  cases tr with
  | nil => rfl
  | cons t tr =>
    by_cases h : t = s
    · subst h; simp [pushStatus]
    · simp [pushStatus, h]

theorem setStatus_head (c : Config) (s : Status) :
    (setStatus c s).strace.head? = some s :=
  pushStatus_head s c.strace

theorem setStatus_chain (c : Config) (s : Status)
    (hh : c.strace.head? = some c.status) (hchain : chainOK c.strace = true)
    (hok : c.status = s ∨ okNext c.status s = true) :
    chainOK (setStatus c s).strace = true := by
  rcases htr : c.strace with _ | ⟨t, tr⟩
  · rw [htr] at hchain; simp [chainOK] at hchain
  · rw [htr] at hh hchain
    simp only [List.head?, Option.some.injEq] at hh
    simp only [setStatus, htr, pushStatus]
    by_cases hts : t = s
    · subst hts
      simpa [pushStatus] using hchain
    · have hok' : okNext t s = true := by
        rcases hok with h1 | h1
        · exact absurd (hh.trans h1) hts
        · rw [hh]; exact h1
      simp [hts, chainOK, hok', hchain]

theorem inv_bstep (c : Config) (h : CInv c) : CInv (step c true) := by
  obtain ⟨ps, hin, hout, hhead, hchain, hsent⟩ := h
  cases hph : c.body.phase with
  | yEnter out =>
    rw [hph] at ps hin hout
    cases hst : c.status with
    | CREATED =>
      simp only [step, if_true, bstep, hph, hst]
      exact ⟨by simp [phaseStatusOK, hst], by simpa [pastIn] using hin,
             by simpa [pastOut] using hout, by simpa [hst] using hhead, hchain, hsent⟩
    | RUNNING =>
      simp only [step, if_true, bstep, hph, hst]
      exact ⟨by simp [phaseStatusOK, hst], by simpa [pastIn] using hin,
             by simpa [pastOut] using hout, by simpa [hst] using hhead, hchain, hsent⟩
    | SUSPENDED => simp [phaseStatusOK, hst] at ps
    | CLOSED => simp [phaseStatusOK, hst] at ps
  | ySetSusp out =>
    rw [hph] at ps hin hout
    have hst : c.status = .RUNNING := by
      cases hst : c.status <;> simp [phaseStatusOK, hst] at ps <;> rfl
    simp only [step, if_true, bstep, hph]
    exact ⟨by simp [phaseStatusOK, setStatus], by simpa [pastIn, setStatus] using hin,
           by simpa [pastOut, setStatus] using hout,
           by simpa [setStatus] using setStatus_head c .SUSPENDED,
           setStatus_chain c .SUSPENDED hhead hchain (Or.inr (by rw [hst]; rfl)),
           by simpa [setStatus] using hsent⟩
  | ySend created out =>
    rw [hph] at ps hin hout
    have houtcl : c.outCh.closed = false := by simpa [pastOut] using hout
    simp only [step, if_true, bstep, hph, houtcl]
    cases hbuf : c.outCh.buf with
    | none =>
      simp only [Bool.false_eq_true, if_false]
      exact ⟨by simpa [phaseStatusOK] using ps, by simpa [pastIn] using hin,
             by simp [pastOut, houtcl], hhead, hchain, hsent⟩
    | some o =>
      simp only [Bool.false_eq_true, if_false]
      exact ⟨by simpa [phaseStatusOK, hph] using ps, by simpa [pastIn, hph] using hin,
             by simpa [pastOut, hph] using hout, hhead, hchain, hsent⟩
  | yRecv created =>
    rw [hph] at ps hin hout
    have hincl : c.inCh.closed = false := by simpa [pastIn] using hin
    simp only [step, if_true, bstep, hph, hincl]
    cases hbuf : c.inCh.buf with
    | none =>
      simp only [Bool.false_eq_true, if_false]
      exact ⟨by simpa [phaseStatusOK, hph] using ps, by simpa [pastIn, hph] using hin,
             by simpa [pastOut, hph] using hout, hhead, hchain, hsent⟩
    | some v =>
      refine ⟨by simpa [phaseStatusOK] using ps, by simpa [pastIn] using hin,
             by simpa [pastOut] using hout, hhead, hchain, ?_⟩
      rw [hbuf] at hsent
      simpa [optList] using hsent
  | ySetRun created =>
    rw [hph] at ps hin hout
    have hst : c.status = (if created then Status.CREATED else Status.SUSPENDED) := by
      simpa [phaseStatusOK] using ps
    simp only [step, if_true, bstep, hph]
    refine ⟨by simp [phaseStatusOK, setStatus], by simpa [pastIn, setStatus] using hin,
           by simpa [pastOut, setStatus] using hout,
           by simpa [setStatus] using setStatus_head c .RUNNING,
           setStatus_chain c .RUNNING hhead hchain (Or.inr ?_),
           by simpa [setStatus] using hsent⟩
    rw [hst]
    cases created <;> rfl
  | run =>
    rw [hph] at ps hin hout
    have hst : c.status = .RUNNING := by
      cases hst : c.status <;> simp [phaseStatusOK, hst] at ps <;> rfl
    simp only [step, if_true, bstep, hph]
    cases houts : c.body.outs with
    | cons o rest =>
      exact ⟨by simp [phaseStatusOK, hst], by simpa [pastIn] using hin,
             by simpa [pastOut] using hout, hhead, hchain, hsent⟩
    | nil =>
      exact ⟨by simp [phaseStatusOK, hst], by simpa [pastIn] using hin,
             by simpa [pastOut] using hout, hhead, hchain, hsent⟩
  | closeStatus e =>
    rw [hph] at ps hin hout
    have hst : c.status = .RUNNING := by
      cases hst : c.status <;> simp [phaseStatusOK, hst] at ps <;> rfl
    simp only [step, if_true, bstep, hph]
    exact ⟨by simp [phaseStatusOK, setStatus], by simpa [pastIn, setStatus] using hin,
           by simpa [pastOut, setStatus] using hout,
           by simpa [setStatus] using setStatus_head c .CLOSED,
           setStatus_chain c .CLOSED hhead hchain (Or.inr (by rw [hst]; rfl)),
           by simpa [setStatus] using hsent⟩
  | closeIn e =>
    rw [hph] at ps hin hout
    have hst : c.status = .CLOSED := by
      cases hst : c.status <;> simp [phaseStatusOK, hst] at ps <;> rfl
    simp only [step, if_true, bstep, hph]
    exact ⟨by simp [phaseStatusOK, hst], by simp [pastIn],
           by simpa [pastOut] using hout, hhead, hchain, hsent⟩
  | closeOut e =>
    rw [hph] at ps hin hout
    have hst : c.status = .CLOSED := by
      cases hst : c.status <;> simp [phaseStatusOK, hst] at ps <;> rfl
    simp only [step, if_true, bstep, hph]
    exact ⟨by simp [phaseStatusOK, hst], by simpa [pastIn] using hin,
           by simp [pastOut], hhead, hchain, hsent⟩
  | done e =>
    simp only [step, if_true, bstep, hph]
    exact ⟨ps, hin, hout, hhead, hchain, hsent⟩

theorem inv_cstep (c : Config) (h : CInv c) : CInv (step c false) := by
  obtain ⟨ps, hin, hout, hhead, hchain, hsent⟩ := h
  cases hph : c.ctrl.phase with
  | idle =>
    cases hcalls : c.ctrl.calls with
    | nil =>
      simp only [step, Bool.false_eq_true, if_false, cstep, hph, hcalls]
      exact ⟨ps, hin, hout, hhead, hchain, hsent⟩
    | cons i rest =>
      by_cases hst : c.status = .CLOSED
      · simp only [step, Bool.false_eq_true, if_false, cstep, hph, hcalls, if_pos hst]
        exact ⟨ps, hin, hout, hhead, hchain, hsent⟩
      · simp only [step, Bool.false_eq_true, if_false, cstep, hph, hcalls, if_neg hst]
        exact ⟨ps, hin, hout, hhead, hchain, hsent⟩
  | rRecv i =>
    cases hbuf : c.outCh.buf with
    | some o =>
      simp only [step, Bool.false_eq_true, if_false, cstep, hph, hbuf]
      exact ⟨ps, hin, by simpa using hout, hhead, hchain, hsent⟩
    | none =>
      by_cases hcl : c.outCh.closed
      · simp only [step, Bool.false_eq_true, if_false, cstep, hph, hbuf, if_pos hcl]
        exact ⟨ps, hin, hout, hhead, hchain, hsent⟩
      · simp only [step, Bool.false_eq_true, if_false, cstep, hph, hbuf,
                   if_neg hcl]
        exact ⟨ps, hin, hout, hhead, hchain, hsent⟩
  | rSend i o =>
    by_cases hcl : c.inCh.closed
    · simp only [step, Bool.false_eq_true, if_false, cstep, hph, if_pos hcl]
      exact ⟨ps, hin, hout, hhead, hchain, hsent⟩
    · cases hbuf : c.inCh.buf with
      | none =>
        simp only [step, Bool.false_eq_true, if_false, cstep, hph, if_neg hcl, hbuf]
        refine ⟨ps, by simpa using hin, hout, hhead, hchain, ?_⟩
        rw [hbuf] at hsent
        simp only [optList] at hsent
        simp [optList, hsent]
      | some _ =>
        simp only [step, Bool.false_eq_true, if_false, cstep, hph, if_neg hcl, hbuf]
        exact ⟨ps, hin, hout, hhead, hchain, hsent⟩

theorem inv_step (c : Config) (w : Bool) (h : CInv c) : CInv (step c w) := by
  cases w
  · exact inv_cstep c h
  · exact inv_bstep c h

theorem inv_exec (sched : List Bool) (c : Config) (h : CInv c) :
    CInv (exec sched c) := by
  induction sched generalizing c with
  | nil => exact h
  | cons w sched ih => exact ih (step c w) (inv_step c w h)

theorem cstep_status (c : Config) : (step c false).status = c.status := by
  cases hph : c.ctrl.phase with
  | idle =>
    cases hcalls : c.ctrl.calls with
    | nil => simp [step, cstep, hph, hcalls]
    | cons i rest =>
      by_cases hst : c.status = .CLOSED <;>
        simp [step, cstep, hph, hcalls, hst]
  | rRecv i =>
    cases hbuf : c.outCh.buf with
    | some o => simp [step, cstep, hph, hbuf]
    | none =>
      by_cases hcl : c.outCh.closed <;> simp [step, cstep, hph, hbuf, hcl]
  | rSend i o =>
    by_cases hcl : c.inCh.closed
    · simp [step, cstep, hph, hcl]
    · cases hbuf : c.inCh.buf with
      | none => simp [step, cstep, hph, hcl, hbuf]
      | some _ => simp [step, cstep, hph, hcl, hbuf]

theorem closed_step (c : Config) (w : Bool) (h : CInv c)
    (hcl : c.status = .CLOSED) : (step c w).status = .CLOSED := by
  cases w
  · rw [cstep_status]; exact hcl
  · obtain ⟨ps, hin, hout, hhead, hchain, hsent⟩ := h
    rw [hcl] at ps
    cases hph : c.body.phase <;> rw [hph] at ps <;>
      first
      | (simp [phaseStatusOK] at ps
         done)
      | (simp only [phaseStatusOK, decide_eq_true_eq] at ps
         split at ps <;> simp at ps)
      | (simp [step, bstep, hph, setStatus, pushStatus, hcl] <;>
         simpa [step, bstep, hph] using hcl)

theorem closed_exec (sched : List Bool) (c : Config) (h : CInv c)
    (hcl : c.status = .CLOSED) : (exec sched c).status = .CLOSED := by
  induction sched generalizing c with
  | nil => exact hcl
  | cons w sched ih =>
    exact ih (step c w) (inv_step c w h) (closed_step c w h hcl)

/-! ### Entry-point normalization and Create / Start -/

/-- The callable shapes accepted by the Create type switch, one
constructor per case of the switch plus invalid for every other value of
the Go argument.  Each supported shape carries the observable behavior of
the body it normalizes to: the outputs of its successive Yield calls and
the error it finally returns.  Shapes without an error result always
return nil, and shapes that do not receive the handle cannot call Yield,
so their payload is restricted accordingly. -/
inductive EntryPoint
| withCoVarErr (outs : List Vals) (ret : Option Err)
| withCoVar (outs : List Vals)
| withCoErr (outs : List Vals) (ret : Option Err)
| withCo (outs : List Vals)
| plainErr (ret : Option Err)
| plain
| invalid
deriving DecidableEq, Repr

/-- The normalization performed by the type switch of Create: the
canonical body behavior for each supported shape, none for an unsupported
value. -/
def normalizeEntry : EntryPoint → Option (List Vals × Option Err)
| .withCoVarErr outs ret => some (outs, ret)
| .withCoVar outs => some (outs, none)
| .withCoErr outs ret => some (outs, ret)
| .withCo outs => some (outs, none)
| .plainErr ret => some ([], ret)
| .plain => some ([], none)
| .invalid => none

/-- Translation of Create (src/coroutine.go): on an unsupported shape it
returns ErrInvalidFunction, having allocated no handle and spawned no
task; otherwise it allocates the two empty capacity-1 channels, sets
status CREATED and spawns the body task at its automatic startup Yield.
The future Resume calls of the controller parametrize the resulting
configuration. -/
def Create (ep : EntryPoint) (calls : List Vals) : Except Err Config :=
  match normalizeEntry ep with
  | some (outs, ret) => .ok (initConfig outs ret calls)
  | none => .error .invalidFunction

/-- Translation of Start (src/coroutine.go): Create, and on success one
plain Resume.  The Go call is c.Resume(nil), whose variadic argument list
is the one-element sequence holding the nil value, so the controller of
the spawned configuration performs a single Resume carrying [nil]; the
configuration is then run under the given schedule.  The Resume output is
discarded: only errors are observable through startError. -/
def Start (ep : EntryPoint) (sched : List Bool) : Except Err Config :=
  match normalizeEntry ep with
  | some (outs, ret) => .ok (exec sched (initConfig outs ret [[GoVal.vnil]]))
  | none => .error .invalidFunction

/-- Error surfaced by Start: the Create error, or else the error of its
single Resume call (none while that call has not completed). -/
def startError : Except Err Config → Option Err
| .error e => some e
| .ok c => ((c.ctrl.results.getLast?).map Prod.snd).getD none

/-- Composition of Create followed by one blocking Resume carrying the
given input, run under the given schedule — the combination that the
specification says Start is equal to. -/
def createThenResume (ep : EntryPoint) (input : Vals) (sched : List Bool) :
    Except Err Config :=
  match Create ep [input] with
  | .error e => .error e
  | .ok cfg => .ok (exec sched cfg)

/-- Modelled from the spec (the refinement comparison side): Start as the
specification words it, namely Create followed immediately by one blocking
Resume with no arguments, so that the body's first input would be the
empty sequence. -/
def StartSpec (ep : EntryPoint) (sched : List Bool) : Except Err Config :=
  createThenResume ep [] sched

/-- A round-robin schedule alternating the body task and the controller
task for the given number of micro-steps (a blocked task idles). -/
def altSched (n : Nat) : List Bool :=
  (List.range n).map (fun i => i % 2 = 0)

/-- Body micro-steps never touch the controller state. -/
theorem bstep_ctrl (c : Config) : (step c true).ctrl = c.ctrl := by
  cases hph : c.body.phase with
  | yEnter out => cases hst : c.status <;> simp [step, bstep, hph, hst, setStatus]
  | ySetSusp out => simp [step, bstep, hph, setStatus]
  | ySend b out =>
    by_cases hcl : c.outCh.closed
    · simp [step, bstep, hph, hcl]
    · cases hbuf : c.outCh.buf <;> simp [step, bstep, hph, hcl, hbuf]
  | yRecv b =>
    cases hbuf : c.inCh.buf with
    | some v => simp [step, bstep, hph, hbuf]
    | none => by_cases hcl : c.inCh.closed <;> simp [step, bstep, hph, hbuf, hcl]
  | ySetRun b => simp [step, bstep, hph, setStatus]
  | run => cases houts : c.body.outs <;> simp [step, bstep, hph, houts]
  | closeStatus e => simp [step, bstep, hph, setStatus]
  | closeIn e => simp [step, bstep, hph]
  | closeOut e => simp [step, bstep, hph]
  | done e => simp [step, bstep, hph]

/-- Errors a completed Resume call can report: none, the closed error, or
the recovered-panic error — never an application error of the body. -/
def resErrOK (l : List (Vals × Option Err)) : Prop :=
  ∀ r ∈ l, r.2 = none ∨ r.2 = some Err.closed ∨ r.2 = some Err.panicked

theorem resErrOK_step (c : Config) (w : Bool) (h : resErrOK c.ctrl.results) :
    resErrOK (step c w).ctrl.results := by
  cases w
  · cases hph : c.ctrl.phase with
    | idle =>
      cases hcalls : c.ctrl.calls with
      | nil => simpa [step, cstep, hph, hcalls] using h
      | cons i rest =>
        by_cases hst : c.status = .CLOSED
        · simp only [step, Bool.false_eq_true, if_false, cstep, hph, hcalls, if_pos hst]
          intro r hr
          rcases List.mem_cons.mp hr with h1 | h1
          · subst h1; exact Or.inr (Or.inl rfl)
          · exact h r h1
        · simp only [step, Bool.false_eq_true, if_false, cstep, hph, hcalls, if_neg hst]
          exact h
    | rRecv i =>
      cases hbuf : c.outCh.buf with
      | some o => simpa [step, cstep, hph, hbuf] using h
      | none =>
        by_cases hcl : c.outCh.closed <;> simpa [step, cstep, hph, hbuf, hcl] using h
    | rSend i o =>
      by_cases hcl : c.inCh.closed
      · simp only [step, Bool.false_eq_true, if_false, cstep, hph, if_pos hcl]
        intro r hr
        rcases List.mem_cons.mp hr with h1 | h1
        · subst h1; exact Or.inr (Or.inr rfl)
        · exact h r h1
      · cases hbuf : c.inCh.buf with
        | none =>
          simp only [step, Bool.false_eq_true, if_false, cstep, hph, if_neg hcl, hbuf]
          intro r hr
          rcases List.mem_cons.mp hr with h1 | h1
          · subst h1; exact Or.inl rfl
          · exact h r h1
        | some _ => simpa [step, cstep, hph, hcl, hbuf] using h
  · rw [bstep_ctrl]; exact h

theorem resErrOK_exec (sched : List Bool) (c : Config) (h : resErrOK c.ctrl.results) :
    resErrOK (exec sched c).ctrl.results := by
  induction sched generalizing c with
  | nil => exact h
  | cons w sched ih => exact ih (step c w) (resErrOK_step c w h)

/-! ### Concrete schedules for the scenario executions

true schedules the body task, false the controller task; each schedule
interleaves the two tasks so that every channel operation finds its
counterpart, as the Go scheduler would. -/

/-- Schedule completing scenario A (startup handoff, one user yield, a
second handoff, body termination). -/
def schedA : List Bool :=
  [true, true, false, false, false, true, true, true, true, true, true,
   false, false, false, true, true, true, true, true, true]

/-- Schedule completing a run whose body terminates right after startup
while a second Resume call is pending. -/
def schedE : List Bool :=
  [true, false, true, false, false, true, true, false, true, true, true, true,
   false, false]

/-- Schedule completing a run whose body terminates right after the
startup handoff, with a single Resume call. -/
def schedS : List Bool :=
  [true, true, false, false, false, true, true, true, true, true, true]

/-! ### Claims -/

set_option maxRecDepth 100000

/-- C1, counterexample: the claim says a timed Resume whose timer fires
marks the status Closed and no later Resume can succeed.  On a SUSPENDED
handle with an output pending, ResumeWithTimeout with the timer fired
returns the deadline error with the handle entirely unchanged — the
status is still SUSPENDED, not CLOSED — and a subsequent plain Resume on
that very handle succeeds with no error; the registry variant's resume
timeout panics and also leaves the status Suspended, not Dead. -/
theorem C1_counterexample :
    Coroutine.ResumeWithTimeout true ⟨.SUSPENDED, none, some [GoVal.str "x"], false⟩ [] =
      some (([], some .deadline), ⟨.SUSPENDED, none, some [GoVal.str "x"], false⟩) ∧
    (Handle.mk .SUSPENDED none (some [GoVal.str "x"]) false).status ≠ .CLOSED ∧
    Coroutine.Resume ⟨.SUSPENDED, none, some [GoVal.str "x"], false⟩ [] =
      some (([GoVal.str "x"], none), ⟨.SUSPENDED, some [], none, false⟩) ∧
    Reg.resume true false ⟨.Suspended, none, some [GoVal.str "x"]⟩ [] =
      some (.error .timeoutPanic, ⟨.Suspended, none, some [GoVal.str "x"]⟩) ∧
    (RegHandle.mk .Suspended none (some [GoVal.str "x"])).status ≠ .Dead :=
  ⟨rfl, by decide, rfl, rfl, by decide⟩

/-- C1, amended: when the timer of a timed Resume fires before the
handoff completes on a non-closed handle, the caller receives the
deadline-exceeded error but the handle is returned entirely unchanged —
in particular its status is not marked Closed, so later Resumes are
unaffected; the registry variant's resume panics with its timeout error,
likewise leaving the handle unchanged (only its yield side marks Dead on
timeout). -/
theorem C1_amended (h : Handle) (input : Vals) (hne : h.status ≠ .CLOSED)
    (rh : RegHandle) (rin : Vals) (t2 : Bool) :
    Coroutine.ResumeWithTimeout true h input = some (([], some .deadline), h) ∧
    Reg.resume true t2 rh rin = some (.error .timeoutPanic, rh) :=
  ⟨rfl, rfl⟩

theorem C1_amended_witness :
    (Handle.mk .SUSPENDED none none false).status ≠ .CLOSED ∧
    (Coroutine.ResumeWithTimeout true ⟨.SUSPENDED, none, none, false⟩ [] =
      some (([], some .deadline), ⟨.SUSPENDED, none, none, false⟩) ∧
     Reg.resume true false ⟨.Suspended, none, none⟩ [] =
      some (.error .timeoutPanic, ⟨.Suspended, none, none⟩)) :=
  ⟨by decide, C1_amended ⟨.SUSPENDED, none, none, false⟩ [] (by decide)
      ⟨.Suspended, none, none⟩ [] false⟩

/-- C2, counterexample: a body that terminates returning the application
error app "boom" while a second Resume is pending: the body task ends
holding that error (inside the spawned goroutine's discarded safe.Do
result), while the pending Resume returns empty output with the
panic-recovery error from sending on the closed input channel, and no
Resume result ever carries the application error. -/
theorem C2_counterexample :
    (exec schedE (initConfig [] (some (.app "boom")) [[], []])).body.phase
      = .done (some (.app "boom")) ∧
    (exec schedE (initConfig [] (some (.app "boom")) [[], []])).ctrl.results.head?
      = some ([], some .panicked) ∧
    (exec schedE (initConfig [] (some (.app "boom")) [[], []])).ctrl.results.all
      (fun r => r.2 != some (Err.app "boom")) = true :=
  ⟨rfl, rfl, rfl⟩

/-- C2, amended: the error returned by the body is never delivered to any
Resume call — under every schedule and every body the errors reported by
Resume are only the closed error, the recovered-panic error or none, so
no application error ever surfaces — and in the canonical run the Resume
pending at termination observes empty output with the recovered panic
from sending on the closed input channel, while the body's own error sits
in the terminated task's discarded result. -/
theorem C2_amended (sched : List Bool) (outs : List Vals) (ret : Option Err)
    (calls : List Vals) (msg : String) :
    (exec sched (initConfig outs ret calls)).ctrl.results.all
      (fun r => r.2 != some (Err.app msg)) = true ∧
    ((exec schedE (initConfig [] (some (.app "boom")) [[], []])).ctrl.results
      = [([], some .panicked), ([], none)] ∧
     (exec schedE (initConfig [] (some (.app "boom")) [[], []])).body.phase
      = .done (some (.app "boom"))) := by
  refine ⟨?_, rfl, rfl⟩
  rw [List.all_eq_true]
  intro r hr
  rcases resErrOK_exec sched _ (by intro r hr; cases hr) r hr with h1 | h1 | h1 <;>
    simp [h1]

/-- C3: scenario A — a body that yields Hello and then finishes, resumed
first with no arguments and then with World: the first Resume returns
empty output and no error, the second returns the sequence holding Hello
and no error, the body's yields observed exactly the empty startup input
followed by the sequence holding World, and the body completed without
error. -/
theorem C3_scenarioA :
    (exec schedA (initConfig [[GoVal.str "Hello"]] none [[], [GoVal.str "World"]])).ctrl.results
      = [([GoVal.str "Hello"], none), ([], none)] ∧
    (exec schedA (initConfig [[GoVal.str "Hello"]] none [[], [GoVal.str "World"]])).recvd
      = [[GoVal.str "World"], []] ∧
    (exec schedA (initConfig [[GoVal.str "Hello"]] none [[], [GoVal.str "World"]])).body.phase
      = .done none :=
  ⟨rfl, rfl, rfl⟩

/-- C4: round-trip law — under every schedule (the model has a single
controller by construction, so the single-caller discipline holds), the
chronological sequence of inputs delivered by Resume sends equals the
sequence of inputs returned by Yield receives, except for at most the one
input still sitting in the capacity-1 input buffer: no value is lost,
duplicated or reordered on its way to the immediately-following Yield. -/
theorem C4_round_trip (sched : List Bool) (outs : List Vals) (ret : Option Err)
    (calls : List Vals) :
    (exec sched (initConfig outs ret calls)).sent =
      optList (exec sched (initConfig outs ret calls)).inCh.buf ++
        (exec sched (initConfig outs ret calls)).recvd ∧
    List.IsSuffix (exec sched (initConfig outs ret calls)).recvd
      (exec sched (initConfig outs ret calls)).sent := by
  have h := (inv_exec sched _ (inv_init outs ret calls)).hsent
  exact ⟨h, ⟨_, h.symm⟩⟩

/-- C5: on a handle whose status is CLOSED, Resume and Yield both fail
immediately with the coroutine-closed error, return no output, perform no
channel operation and leave the handle unchanged — and since the handle is
returned unchanged, the same holds for every subsequent call. -/
theorem C5_closed_rejects (h : Handle) (input out : Vals) (hcl : h.status = .CLOSED) :
    Coroutine.Resume h input = some (([], some .closed), h) ∧
    Coroutine.Yield h out = some (([], some .closed), h) := by
  constructor <;> simp [Coroutine.Resume, Coroutine.Yield, hcl]

theorem C5_closed_rejects_witness :
    (Handle.mk .CLOSED none none true).status = .CLOSED ∧
    (Coroutine.Resume ⟨.CLOSED, none, none, true⟩ [GoVal.vnil] =
      some (([], some .closed), ⟨.CLOSED, none, none, true⟩) ∧
     Coroutine.Yield ⟨.CLOSED, none, none, true⟩ [GoVal.str "a"] =
      some (([], some .closed), ⟨.CLOSED, none, none, true⟩)) :=
  ⟨rfl, C5_closed_rejects ⟨.CLOSED, none, none, true⟩ [GoVal.vnil] [GoVal.str "a"] rfl⟩

/-- C6: a Yield entered on a CREATED handle (the automatic startup one)
first sends its output, then receives input, then sets status RUNNING,
never writing SUSPENDED — the status is still CREATED after the send and
after the receive; a Yield entered on a RUNNING or SUSPENDED handle first
sets status SUSPENDED (before its send), then sends, then receives, then
sets status RUNNING.  Stated over the body task's micro-steps with the
counterpart's input already buffered so neither channel operation blocks;
the final configurations are given exactly. -/
theorem C6_yield_order (c₁ c₂ : Config) (o₁ o₂ v₁ v₂ : Vals)
    (hph₁ : c₁.body.phase = .yEnter o₁) (hst₁ : c₁.status = .CREATED)
    (hout₁ : c₁.outCh = ⟨none, false⟩) (hin₁ : c₁.inCh = ⟨some v₁, false⟩)
    (hph₂ : c₂.body.phase = .yEnter o₂)
    (hst₂ : c₂.status = .RUNNING ∨ c₂.status = .SUSPENDED)
    (hout₂ : c₂.outCh = ⟨none, false⟩) (hin₂ : c₂.inCh = ⟨some v₂, false⟩) :
    ((bsteps 2 c₁).outCh.buf = some o₁ ∧ (bsteps 2 c₁).status = .CREATED ∧
     (bsteps 3 c₁).inCh.buf = none ∧ (bsteps 3 c₁).recvd = v₁ :: c₁.recvd ∧
     (bsteps 3 c₁).status = .CREATED ∧
     bsteps 4 c₁ = { c₁ with
        status := .RUNNING
        strace := pushStatus .RUNNING c₁.strace
        outCh := ⟨some o₁, false⟩
        inCh := ⟨none, false⟩
        recvd := v₁ :: c₁.recvd
        body.phase := .run }) ∧
    ((bsteps 2 c₂).status = .SUSPENDED ∧ (bsteps 2 c₂).outCh.buf = none ∧
     (bsteps 3 c₂).outCh.buf = some o₂ ∧ (bsteps 3 c₂).status = .SUSPENDED ∧
     (bsteps 4 c₂).inCh.buf = none ∧ (bsteps 4 c₂).recvd = v₂ :: c₂.recvd ∧
     (bsteps 4 c₂).status = .SUSPENDED ∧
     bsteps 5 c₂ = { c₂ with
        status := .RUNNING
        strace := pushStatus .RUNNING (pushStatus .SUSPENDED c₂.strace)
        outCh := ⟨some o₂, false⟩
        inCh := ⟨none, false⟩
        recvd := v₂ :: c₂.recvd
        body.phase := .run }) := by
  constructor
  · obtain ⟨s₁, i₁, u₁, ⟨bp₁, bo₁, br₁⟩, ct₁, se₁, re₁, tr₁⟩ := c₁
    simp only at hph₁ hst₁ hout₁ hin₁
    subst hph₁ hst₁ hout₁ hin₁
    exact ⟨rfl, rfl, rfl, rfl, rfl, rfl⟩
  · obtain ⟨s₂, i₂, u₂, ⟨bp₂, bo₂, br₂⟩, ct₂, se₂, re₂, tr₂⟩ := c₂
    simp only at hph₂ hst₂ hout₂ hin₂
    subst hph₂ hout₂ hin₂
    rcases hst₂ with h | h <;> subst h <;>
      exact ⟨rfl, rfl, rfl, rfl, rfl, rfl, rfl, rfl⟩

theorem C6_yield_order_witness :
    ((Config.mk .CREATED ⟨some [GoVal.vnil], false⟩ ⟨none, false⟩
        ⟨.yEnter [], [], none⟩ ⟨.idle, [], []⟩ [] [] [.CREATED]).body.phase
      = .yEnter [] ∧
     (Config.mk .RUNNING ⟨some [GoVal.vnil], false⟩ ⟨none, false⟩
        ⟨.yEnter [], [], none⟩ ⟨.idle, [], []⟩ [] [] [.RUNNING, .CREATED]).status
      = .RUNNING) ∧
    ((bsteps 4 (Config.mk .CREATED ⟨some [GoVal.vnil], false⟩ ⟨none, false⟩
        ⟨.yEnter [], [], none⟩ ⟨.idle, [], []⟩ [] [] [.CREATED])).status = .RUNNING ∧
     (bsteps 5 (Config.mk .RUNNING ⟨some [GoVal.vnil], false⟩ ⟨none, false⟩
        ⟨.yEnter [], [], none⟩ ⟨.idle, [], []⟩ [] [] [.RUNNING, .CREATED])).status
      = .RUNNING) :=
  ⟨⟨rfl, rfl⟩,
   ⟨((C6_yield_order
        (Config.mk .CREATED ⟨some [GoVal.vnil], false⟩ ⟨none, false⟩
          ⟨.yEnter [], [], none⟩ ⟨.idle, [], []⟩ [] [] [.CREATED])
        (Config.mk .RUNNING ⟨some [GoVal.vnil], false⟩ ⟨none, false⟩
          ⟨.yEnter [], [], none⟩ ⟨.idle, [], []⟩ [] [] [.RUNNING, .CREATED])
        [] [] [GoVal.vnil] [GoVal.vnil] rfl rfl rfl rfl rfl (Or.inl rfl) rfl rfl).1.2.2.2.2.2 ▸ rfl),
    ((C6_yield_order
        (Config.mk .CREATED ⟨some [GoVal.vnil], false⟩ ⟨none, false⟩
          ⟨.yEnter [], [], none⟩ ⟨.idle, [], []⟩ [] [] [.CREATED])
        (Config.mk .RUNNING ⟨some [GoVal.vnil], false⟩ ⟨none, false⟩
          ⟨.yEnter [], [], none⟩ ⟨.idle, [], []⟩ [] [] [.RUNNING, .CREATED])
        [] [] [GoVal.vnil] [GoVal.vnil] rfl rfl rfl rfl rfl (Or.inl rfl) rfl rfl).2.2.2.2.2.2.2.2 ▸ rfl)⟩⟩

/-- C7: Create on any of the six supported shapes returns, with no error,
a handle in status CREATED whose body task is spawned at its automatic
startup Yield; Create on any other value returns the invalid-function
error and yields no handle and no task. -/
theorem C7_create_validation (ep₁ ep₂ : EntryPoint) (calls : List Vals)
    (h₁ : ep₁ ≠ .invalid) (h₂ : ep₂ = .invalid) :
    (∃ outs ret, Create ep₁ calls = .ok (initConfig outs ret calls) ∧
      (initConfig outs ret calls).status = .CREATED ∧
      (initConfig outs ret calls).body.phase = .yEnter []) ∧
    Create ep₂ calls = .error .invalidFunction := by
  constructor
  · cases ep₁ <;> first
      | exact absurd rfl h₁
      | exact ⟨_, _, rfl, rfl, rfl⟩
  · rw [h₂]; rfl

theorem C7_create_validation_witness :
    (EntryPoint.plain ≠ EntryPoint.invalid ∧ EntryPoint.invalid = EntryPoint.invalid) ∧
    ((∃ outs ret, Create .plain [] = .ok (initConfig outs ret []) ∧
        (initConfig outs ret []).status = .CREATED ∧
        (initConfig outs ret []).body.phase = .yEnter []) ∧
     Create .invalid [] = .error .invalidFunction) :=
  ⟨⟨by decide, rfl⟩, C7_create_validation .plain .invalid [] (by decide) rfl⟩

/-- C8: for every body, every list of Resume calls and every schedule,
the chronological sequence of observed statuses is accepted by the
lifecycle automaton — it is of the shape Created, Running,
(Suspended, Running)*, optionally ending in Closed — and once the status
is CLOSED no further scheduling of any operation ever changes it. -/
theorem C8_status_trace (sched sched₂ : List Bool) (outs : List Vals)
    (ret : Option Err) (calls : List Vals) :
    traceAccepted ((exec sched (initConfig outs ret calls)).strace.reverse) = true ∧
    ((exec sched (initConfig outs ret calls)).status = .CLOSED →
      (exec (sched ++ sched₂) (initConfig outs ret calls)).status = .CLOSED) := by
  have hinv := inv_exec sched _ (inv_init outs ret calls)
  refine ⟨chain_accepted _ hinv.hchain _ hinv.hhead, fun hcl => ?_⟩
  rw [exec, List.foldl_append]
  exact closed_exec sched₂ _ hinv hcl

theorem C8_status_trace_witness :
    traceAccepted ((exec schedS (initConfig [] none [[]])).strace.reverse) = true ∧
    (exec (schedS ++ [true, false]) (initConfig [] none [[]])).status = .CLOSED :=
  ⟨(C8_status_trace schedS [true, false] [] none [[]]).1,
   (C8_status_trace schedS [true, false] [] none [[]]).2 rfl⟩

/-- C9, counterexample: the claim says Start equals Create followed by a
Resume with no arguments, the body's first input being the empty
sequence.  Running Start on a trivial supported body, the body's received
first input is the one-element sequence holding nil (because the source
calls c.Resume(nil), a one-element variadic list), which differs from the
empty sequence received under the spec-worded composition. -/
theorem C9_counterexample :
    (Start (.withCo []) schedS).toOption.map Config.recvd = some [[GoVal.vnil]] ∧
    (StartSpec (.withCo []) schedS).toOption.map Config.recvd = some [([] : Vals)] ∧
    ([[GoVal.vnil]] : List Vals) ≠ [([] : Vals)] :=
  ⟨rfl, rfl, by decide⟩

/-- C9, amended: Start is extensionally equal to Create followed by one
blocking Resume carrying the single value nil — so the body's first input
is the one-element sequence holding nil, not the empty sequence — with
the Resume output discarded and only the error of whichever step failed
surfaced. -/
theorem C9_start_amended (ep : EntryPoint) (sched : List Bool) :
    Start ep sched = createThenResume ep [GoVal.vnil] sched ∧
    startError (Start ep sched) = startError (createThenResume ep [GoVal.vnil] sched) ∧
    (Start (.withCo []) schedS).toOption.map Config.recvd = some [[GoVal.vnil]] := by
  have h : Start ep sched = createThenResume ep [GoVal.vnil] sched := by
    cases hn : normalizeEntry ep with
    | none => simp [Start, createThenResume, Create, hn]
    | some p =>
      obtain ⟨outs, ret⟩ := p
      simp [Start, createThenResume, Create, hn]
  exact ⟨h, by rw [h], rfl⟩

/-- C10: a runtime fault during the handoff is never propagated as a
panic: when Resume's send hits the closed input channel the recovered
fault is surfaced as the ordinary panicked error result of that call and
the controller continues, and when Yield's send hits the closed output
channel the recovered fault becomes the Yield call's ordinary error
return, which the body then terminates with — in both cases the step
yields a well-defined successor configuration. -/
theorem C10_panic_recovered (c : Config) (i o out : Vals) (b : Bool)
    (hc : c.ctrl.phase = .rSend i o) (hin : c.inCh.closed = true)
    (hb : c.body.phase = .ySend b out) (hout : c.outCh.closed = true) :
    cstep c = some { c with
      ctrl := { c.ctrl with
                phase := .idle
                results := (o, some .panicked) :: c.ctrl.results } } ∧
    bstep c = some { c with
      body := { c.body with phase := .closeStatus (some .panicked) } } := by
  constructor
  · simp [cstep, hc, hin]
  · simp [bstep, hb, hout]

theorem C10_panic_recovered_witness :
    ((Config.mk .CLOSED ⟨none, true⟩ ⟨none, true⟩ ⟨.ySend false [], [], none⟩
        ⟨.rSend [] [], [], []⟩ [] [] [.CLOSED, .RUNNING, .CREATED]).ctrl.phase
      = .rSend [] [] ∧
     (Config.mk .CLOSED ⟨none, true⟩ ⟨none, true⟩ ⟨.ySend false [], [], none⟩
        ⟨.rSend [] [], [], []⟩ [] [] [.CLOSED, .RUNNING, .CREATED]).inCh.closed = true) ∧
    (cstep (Config.mk .CLOSED ⟨none, true⟩ ⟨none, true⟩ ⟨.ySend false [], [], none⟩
        ⟨.rSend [] [], [], []⟩ [] [] [.CLOSED, .RUNNING, .CREATED])).isSome = true ∧
    (bstep (Config.mk .CLOSED ⟨none, true⟩ ⟨none, true⟩ ⟨.ySend false [], [], none⟩
        ⟨.rSend [] [], [], []⟩ [] [] [.CLOSED, .RUNNING, .CREATED])).isSome = true := by
  refine ⟨⟨rfl, rfl⟩, ?_, ?_⟩
  · rw [(C10_panic_recovered _ [] [] [] false rfl rfl rfl rfl).1]; rfl
  · rw [(C10_panic_recovered _ [] [] [] false rfl rfl rfl rfl).2]; rfl
